import Mathlib

/-!
Shallow embedding of the max-bot Flow Engine: the stack-based navigation state
machine (`validate_flow` and the flow handlers), the exit/back callback, the
pagination callback, the callback dedup cache, the `@`-reference resolver of
the configuration loader, the card renderer and the free-text chat handler.

Machine integers of the source are modelled as `Int`; Python dicts as
association lists; fallible config loading as `Except`.
-/

namespace MaxBot

/-- One result card (a JSON record); field values are modelled as strings,
which is all the renderer ever prints. -/
abbrev Card := List (String × String)

/-- Menu map built by `core/utils.py get_menus`: flow name (or the root key
`"main"`) to the ordered list of its button names.  `validate_flow` only ever
reads the button names, so the `privileged` flag of a button is dropped. -/
abbrev Menus := List (String × List String)

/-- `self.menus.get(flow, [])` followed by `[btn.name for btn in ...]`. -/
def menuButtons (menus : Menus) (flow : String) : List String :=
  (menus.lookup flow).getD []

/-- The navigation/session state of one user
(`database/schemas.py DBUserState`, identity and timestamps omitted). -/
structure UserState where
  flow_stack : List String
  search_type : String
  use_pagination : Bool
  cards_json : Option (List Card)
  cards_current_page : Int
  cards_total_length : Int
  callback_message_id : Option String
  callback_message_need_to_delete : Bool
  deriving Repr, DecidableEq

/-- Default `DBUserState` of a freshly created user: `flow_stack=["main"]`,
empty sentinels elsewhere. -/
def initialUserState : UserState :=
  { flow_stack := ["main"]
    search_type := ""
    use_pagination := false
    cards_json := none
    cards_current_page := -1
    cards_total_length := -1
    callback_message_id := none
    callback_message_need_to_delete := false }

/-- The per-flow configuration a `BaseHandler` carries
(`core/base.py BaseHandler.__init__`). -/
structure FlowConfig where
  current_flow : String
  is_nested : Bool
  privileged : Bool
  deriving Repr, DecidableEq

/-- `core/base.py BaseHandler.validate_flow` (lines 252-302): self-reentry is
always allowed; a nested flow must be a button of the menu of the user's
current top-of-stack flow; a root flow requires the user to be at `"main"`.
`flow_stack[-1]` is modelled with `getLastD ""` (the stack is non-empty on
every call, see the reachability invariant below). -/
def validate_flow (menus : Menus) (cfg : FlowConfig) (st : UserState) : Bool :=
  let user_current_flow := st.flow_stack.getLastD ""
  if user_current_flow = cfg.current_flow then
    true
  else
    let button_names := menuButtons menus user_current_flow
    if cfg.is_nested then
      button_names.contains cfg.current_flow
    else
      user_current_flow = "main"

/-- `core/commands.py StartCommand.__call__`: state reset performed by `/start`. -/
def startStep (st : UserState) : UserState :=
  { st with
    flow_stack := ["main"]
    use_pagination := false
    search_type := ""
    cards_json := none }

/-- `core/commands.py ResetCommand.__call__`: state reset performed by `/reset`. -/
def resetStep (st : UserState) : UserState :=
  { st with
    flow_stack := ["main"]
    use_pagination := false
    search_type := ""
    cards_json := none
    callback_message_id := none }

/-- `core/handlers.py StaticHandler.__call__` never touches the state. -/
def staticStep (st : UserState) : UserState := st

/-- `core/handlers.py ExtendedStaticHandler.__call__` (lines 102-162), state
part after a successful user validation.  A root (non-nested) flow first
resets the stack to `["main"]`, then `validate_flow` runs, and on success the
target flow is appended.  The boolean is `true` iff the handler proceeded to
send its message. -/
def extendedStaticStep (menus : Menus) (cfg : FlowConfig) (st : UserState) :
    UserState × Bool :=
  let st1 :=
    if cfg.is_nested then st else { st with flow_stack := ["main"] }
  if validate_flow menus cfg st1 then
    ({ st1 with flow_stack := st1.flow_stack ++ [cfg.current_flow] }, true)
  else
    (st1, false)

/-- `core/handlers.py ManagedHandler.__call__` (lines 174-218), state part
after a successful user validation: `validate_flow`, then set `search_type`,
append the flow, set `use_pagination`.  The boolean is `true` iff the handler
proceeded to send its message. -/
def managedStep (menus : Menus) (cfg : FlowConfig) (searchType : String)
    (usePagination : Bool) (st : UserState) : UserState × Bool :=
  if validate_flow menus cfg st then
    ({ st with
        search_type := searchType
        flow_stack := st.flow_stack ++ [cfg.current_flow]
        use_pagination := usePagination }, true)
  else
    (st, false)

/-- `core/callbacks.py ExitCallback.__call__` (lines 34-99), state part: pop
one level when the stack is deeper than one, then clear the search state. -/
def exitStep (st : UserState) : UserState :=
  let fs := if st.flow_stack.length > 1 then st.flow_stack.dropLast
            else st.flow_stack
  { st with
    flow_stack := fs
    use_pagination := false
    search_type := ""
    cards_json := none }

/-- Python truthiness of `user.state.cards_json` (`None` and `[]` are falsy). -/
def cardsTruthy : Option (List Card) → Bool
  | none => false
  | some l => !l.isEmpty

/-- Python truthiness of `response.get("answer")`. -/
def truthyStr : Option String → Bool
  | none => false
  | some s => !(s == "")

/-- `core/callbacks.py PaginationCallback.__call__` (lines 150-255), state
part: `previous_callback` decrements the page when it is positive,
`next_callback` increments it when it is below `cards_total_length - 1`;
`accept_callback`, `inactive_callback` and anything else leave the state
alone, as does any call without truthy `cards_json` or callback data. -/
def paginationStep (callback_data : String) (st : UserState) : UserState :=
  if callback_data == "" || !cardsTruthy st.cards_json then st
  else if callback_data == "previous_callback" then
    if st.cards_current_page > 0 then
      { st with cards_current_page := st.cards_current_page - 1 }
    else st
  else if callback_data == "next_callback" then
    if st.cards_current_page < st.cards_total_length - 1 then
      { st with cards_current_page := st.cards_current_page + 1 }
    else st
  else st

/-- Does the second character list start with the first? -/
def charsLead : List Char → List Char → Bool
  | [], _ => true
  | _ :: _, [] => false
  | p :: ps, c :: cs => p == c && charsLead ps cs

/-- Does the character list contain `pat` as a contiguous run? -/
def charsContain (pat : List Char) : List Char → Bool
  | [] => charsLead pat []
  | c :: cs => charsLead pat (c :: cs) || charsContain pat cs

/-- Python `pat in s` (substring containment). -/
def pyContains (pat s : String) : Bool :=
  charsContain pat.toList s.toList

/-- Helper for `pySplitDot`: accumulate the current segment (reversed). -/
def splitDotAux : List Char → List Char → List String
  | [], acc => [String.mk acc.reverse]
  | c :: rest, acc =>
    if c == '.' then String.mk acc.reverse :: splitDotAux rest []
    else splitDotAux rest (c :: acc)

/-- Python `s.split(".")`: `""` gives `[""]`, separators are not kept. -/
def pySplitDot (s : String) : List String :=
  splitDotAux s.toList []

/-- Python `s.startswith("@")`. -/
def startsWithAt (s : String) : Bool :=
  match s.toList with
  | c :: _ => c == '@'
  | [] => false

/-- Python `s[1:]`. -/
def pyDropOne (s : String) : String :=
  String.mk (s.toList.drop 1)

/-- `core/response_builder.py card_from_json` (lines 4-47): one line per known
field of the card, headed by a page counter, joined with newlines.  The
`name`/`title` pair is an `if`/`elif`; every other field is independent. -/
def cardFieldLines (card : Card) : List String :=
  let lines : List String :=
    match card.lookup "name" with
    | some v => [s!"*{v}*\n"]
    | none =>
      match card.lookup "title" with
      | some v => [s!"*{v}*\n"]
      | none => []
  let lines := lines ++
    match card.lookup "description" with
    | some v => [s!"{v}\n"]
    | none => []
  let lines := lines ++
    match card.lookup "company" with
    | some v => [s!"🏢 Компания: {v}"]
    | none => []
  let lines := lines ++
    match card.lookup "category" with
    | some v => [s!"📂 Категория: {v}"]
    | none => []
  let lines := lines ++
    match card.lookup "location" with
    | some v => [s!"📍 Местоположение: {v}"]
    | none => []
  let lines := lines ++
    match card.lookup "contact" with
    | some v => [s!"📞 Контакт: {v}"]
    | none => []
  let lines := lines ++
    match card.lookup "url" with
    | some v => [s!"🔗 [Подробнее]({v})"]
    | none => []
  lines

def card_from_json (card : Card) (current_page : Int) (total_pages : Int) :
    String :=
  String.intercalate "\n"
    (s!"📄 Результат {current_page + 1} из {total_pages + 1}\n" ::
      cardFieldLines card)

/-- The AI-search collaborator's response shape
(`clients/ai` / `ChatHandler.__call__`); `none` is an absent key. -/
structure AIResponse where
  answer : Option String
  cards : Option (List Card)
  product_cards : Option (List Card)
  deriving Repr, DecidableEq

/-- `ChatHandler.__call__` lines 262-269: a user whose current flow is neither
a managed flow nor the free-text marker `""` is pushed onto the marker flow
with `search_type="questions"` and pagination off. -/
def chatFlowAdjust (managed_flows : List String) (st : UserState) : UserState :=
  let user_current_flow := st.flow_stack.getLastD ""
  if !(managed_flows.contains user_current_flow) && user_current_flow != "" then
    { st with
      use_pagination := false
      search_type := "questions"
      flow_stack := st.flow_stack ++ [""] }
  else st

/-- `ChatHandler.__call__` lines 292-323: interpret the AI response.  With
pagination on and a truthy response, `cards` takes precedence over
`product_cards`; the pagination state is initialised and page 0 is rendered.
(The source would raise on a present-but-empty `cards` list before indexing
`cards[0]`; `headD []` is only reached where the source raises.) -/
def chatInterpret (query_not_found : String) (resp : AIResponse)
    (st : UserState) : UserState × String :=
  if truthyStr resp.answer || cardsTruthy resp.cards ||
      cardsTruthy resp.product_cards then
    if st.use_pagination then
      let cards : Option (List Card) :=
        match resp.cards with
        | some cs => some cs
        | none => resp.product_cards
      match cards with
      | some cs =>
        ({ st with
            cards_json := some cs
            cards_current_page := 0
            cards_total_length := (cs.length : Int) },
         card_from_json (cs.headD []) 0 ((cs.length : Int) - 1))
      | none => (st, query_not_found)
    else
      (st, resp.answer.getD query_not_found)
  else
    ({ st with cards_json := none }, query_not_found)

/-- `ChatHandler.__call__` lines 325-327: a known placeholder link is
replaced by a fixed "no information" answer. -/
def yaRuFilter (content : String) : String :=
  if pyContains "https://ya.ru" content then
    "У меня нет информации по этому вопросу"
  else content

/-- `ChatHandler.__call__` lines 351-354: after a successful send, the sent
message becomes the tracked callback message. -/
def chatTrack (sent_message_id : Option String) (st : UserState) : UserState :=
  match sent_message_id with
  | some mid =>
    { st with
      callback_message_need_to_delete := false
      callback_message_id := some mid }
  | none => st

/-- `core/handlers.py ChatHandler.__call__` (lines 231-356), state and
content part after a successful user validation, parameterised by the AI
response and the id of the message the send returned (`none` = send failed). -/
def chatStep (managed_flows : List String) (query_not_found : String)
    (resp : AIResponse) (sent_message_id : Option String) (st : UserState) :
    UserState × String :=
  let st1 := chatFlowAdjust managed_flows st
  let res := chatInterpret query_not_found resp st1
  (chatTrack sent_message_id res.1, yaRuFilter res.2)

/-- The dedup cache `MaxBot._processed_callbacks`: a dict from
`"user_id:payload"` keys to the last seen event timestamp (ms), modelled as
an association list with unique keys. -/
abbrev DedupCache := List (String × Int)

/-- Python dict assignment `cache[key] = t`: overwrite in place when the key
exists, append otherwise. -/
def dedupInsert (cache : DedupCache) (key : String) (t : Int) : DedupCache :=
  if (cache.lookup key).isSome then
    cache.map (fun kv => if kv.1 = key then (key, t) else kv)
  else
    cache ++ [(key, t)]

/-- `core/bot.py _process_callback` lines 247-254: drop entries more than
10000 ms older than the current event's own timestamp. -/
def dedupPrune (t : Int) (cache : DedupCache) : DedupCache :=
  cache.filter (fun kv => !(t - kv.2 > 10000))

/-- `core/bot.py MaxBot._process_callback` (lines 219-257), dedup part: with
truthy `user_id` and `payload`, an event within 2000 ms of the recorded
timestamp for its key is dropped; otherwise its timestamp is recorded and the
cache pruned.  Returns `(dropped, new cache)`. -/
def dedupStep (cache : DedupCache) (user_id : Option Int)
    (payload : Option String) (t : Int) : Bool × DedupCache :=
  match user_id, payload with
  | some uid, some p =>
    if uid != 0 && p != "" then
      let key := s!"{uid}:{p}"
      match cache.lookup key with
      | some t0 =>
        if t - t0 < 2000 then (true, cache)
        else (false, dedupPrune t (dedupInsert cache key t))
      | none => (false, dedupPrune t (dedupInsert cache key t))
    else (false, cache)
  | _, _ => (false, cache)

/-- The slice of `core/schemas.py User` the handlers read. -/
structure UserRec where
  is_vip : Bool
  deriving Repr, DecidableEq

/-- `core/base.py BaseHandler.validate_user` (lines 225-250): the user must
exist, and must be VIP when the flow is privileged. -/
def validate_user (cfg : FlowConfig) (user : Option UserRec) : Bool :=
  match user with
  | none => false
  | some u => !(cfg.privileged && !u.is_vip)

/-- `core/handlers.py StaticHandler.__call__` (lines 32-73): a message event
from a valid user gets the static content sent; the state is returned as it
came in.  The boolean is `true` iff the handler proceeded to send. -/
def staticCall (cfg : FlowConfig) (has_message : Bool) (user : Option UserRec)
    (st : UserState) : UserState × Bool :=
  if !has_message then (st, false)
  else if !validate_user cfg user then (st, false)
  else (st, true)

/-- A JSON value of the configuration document. -/
inductive JValue where
  | str (s : String)
  | num (n : Int)
  | boolean (b : Bool)
  | null
  | obj (fields : List (String × JValue))
  | arr (items : List JValue)

/-- Dict field access returning `none` for a missing key or a non-dict. -/
def getDictField : JValue → String → Option JValue
  | .obj fields, k => fields.lookup k
  | _, _ => none

/-- `for subkey in parts[1:]`-loop of `resolve_references`: each dotted
segment must index a dict, else the load aborts. -/
def drillParts : JValue → List String → Except String JValue
  | v, [] => .ok v
  | .obj fields, k :: rest =>
    match fields.lookup k with
    | some v => drillParts v rest
    | none => .error s!"Reference is invalid: missing {k} key."
  | _, k :: _ => .error s!"Reference is invalid: missing {k} key."

mutual

/-- `core/utils.py resolve_references` (lines 20-61): replace every string
beginning with `@` by the value found under
`context["buttons"][first part]`, drilling into the remaining dotted parts;
a missing key aborts the load (`ValueError`). -/
def resolve_references (ctx : JValue) : JValue → Except String JValue
  | .obj fields => do
    let fs ← resolveFields ctx fields
    return .obj fs
  | .arr items => do
    let is ← resolveItems ctx items
    return .arr is
  | .str s =>
    if startsWithAt s then
      let reference := pyDropOne s
      let parts := pySplitDot reference
      let base_key := parts.headD ""
      match getDictField ctx "buttons" with
      | none => .error s!"Reference @{base_key} not found in buttons."
      | some buttons =>
        match getDictField buttons base_key with
        | none => .error s!"Reference @{base_key} not found in buttons."
        | some resolved => drillParts resolved (parts.drop 1)
    else .ok (.str s)
  | .num n => .ok (.num n)
  | .boolean b => .ok (.boolean b)
  | .null => .ok .null

def resolveFields (ctx : JValue) :
    List (String × JValue) → Except String (List (String × JValue))
  | [] => .ok []
  | (k, v) :: rest => do
    let v2 ← resolve_references ctx v
    let rest2 ← resolveFields ctx rest
    return (k, v2) :: rest2

def resolveItems (ctx : JValue) : List JValue → Except String (List JValue)
  | [] => .ok []
  | v :: rest => do
    let v2 ← resolve_references ctx v
    let rest2 ← resolveItems ctx rest
    return v2 :: rest2

end

/-- Is a resolution result the fatal `ValueError` that aborts startup? -/
def isResolveError : Except String JValue → Bool
  | .error _ => true
  | .ok _ => false

/-- One core operation on a user's state, as routed by
`core/bot.py MaxBot._process_message` / `_process_callback`. -/
inductive CoreOp where
  | startCmd
  | resetCmd
  | staticFlow
  | extendedStaticFlow (menus : Menus) (cfg : FlowConfig)
  | managedFlow (menus : Menus) (cfg : FlowConfig) (searchType : String)
      (usePagination : Bool)
  | chatMessage (managed_flows : List String) (query_not_found : String)
      (resp : AIResponse) (sent_message_id : Option String)
  | exitCb
  | paginationCb (callback_data : String)

/-- The state effect of one core operation (states are persisted by the
`middleware` decorator whichever way validation went). -/
def applyOp (op : CoreOp) (st : UserState) : UserState :=
  match op with
  | .startCmd => startStep st
  | .resetCmd => resetStep st
  | .staticFlow => staticStep st
  | .extendedStaticFlow menus cfg => (extendedStaticStep menus cfg st).1
  | .managedFlow menus cfg s u => (managedStep menus cfg s u st).1
  | .chatMessage mf q resp mid => (chatStep mf q resp mid st).1
  | .exitCb => exitStep st
  | .paginationCb d => paginationStep d st

/-- Apply a sequence of core operations in order. -/
def applyOps (ops : List CoreOp) (st : UserState) : UserState :=
  ops.foldl (fun s op => applyOp op s) st

/-- The navigation invariant: the flow stack is non-empty and bottom-anchored
at `"main"`. -/
def FlowStackInv (st : UserState) : Prop :=
  st.flow_stack ≠ [] ∧ st.flow_stack.head? = some "main"

/-! Concrete states and configurations used to evaluate the theorems. -/

def exDeepState : UserState :=
  { initialUserState with flow_stack := ["main", "a", "b"] }

def exPagState : UserState :=
  { initialUserState with
    cards_json := some [[("name", "x")]]
    cards_current_page := 1
    cards_total_length := 3 }

def exSelfState : UserState :=
  { initialUserState with flow_stack := ["main", "b"] }

def exNonMainState : UserState :=
  { initialUserState with flow_stack := ["main", "a"] }

def exSearchState : UserState :=
  { initialUserState with flow_stack := ["main", "Search"] }

def exNestedCfg : FlowConfig :=
  { current_flow := "b", is_nested := true, privileged := false }

def exRootCfg : FlowConfig :=
  { current_flow := "b", is_nested := false, privileged := false }

def exSearchCfg : FlowConfig :=
  { current_flow := "Search", is_nested := true, privileged := false }

def exChatState : UserState :=
  { initialUserState with
    flow_stack := ["main", "Search"]
    use_pagination := true }

def exC8Ctx : JValue :=
  .obj [("buttons", .obj [("exit", .obj [("content", .str "Назад")])])]

/-!  Helper lemmas. -/

theorem head?_append_singleton (l : List String) (x : String) (h : l ≠ []) :
    (l ++ [x]).head? = l.head? := by
  cases l with
  | nil => exact absurd rfl h
  | cons a t => rfl

theorem dropLast_head_of_one_lt (l : List String) (h : 1 < l.length) :
    l.dropLast ≠ [] ∧ l.dropLast.head? = l.head? := by
  match l with
  | [] => simp at h
  | [a] => simp at h
  | a :: b :: t => exact ⟨by simp, rfl⟩

theorem paginationStep_flow_stack (d : String) (st : UserState) :
    (paginationStep d st).flow_stack = st.flow_stack := by
  unfold paginationStep
  repeat' split
  all_goals rfl

theorem chatInterpret_flow_stack (q : String) (resp : AIResponse)
    (st : UserState) :
    (chatInterpret q resp st).1.flow_stack = st.flow_stack := by
  unfold chatInterpret
  cases resp.cards <;> cases resp.product_cards <;> repeat' split
  all_goals rfl

theorem chatTrack_flow_stack (mid : Option String) (st : UserState) :
    (chatTrack mid st).flow_stack = st.flow_stack := by
  cases mid <;> rfl

theorem chatFlowAdjust_inv (mf : List String) (st : UserState)
    (h : FlowStackInv st) : FlowStackInv (chatFlowAdjust mf st) := by
  simp only [chatFlowAdjust]
  split
  · refine ⟨by simp, ?_⟩
    show (st.flow_stack ++ [""]).head? = some "main"
    rw [head?_append_singleton _ _ h.1]
    exact h.2
  · exact h

theorem extendedStaticStep_inv (menus : Menus) (cfg : FlowConfig)
    (st : UserState) (h : FlowStackInv st) :
    FlowStackInv (extendedStaticStep menus cfg st).1 := by
  simp only [extendedStaticStep]
  cases hn : cfg.is_nested with
  | true =>
    simp only [hn, if_true]
    split
    · refine ⟨by simp, ?_⟩
      show (st.flow_stack ++ [cfg.current_flow]).head? = some "main"
      rw [head?_append_singleton _ _ h.1]
      exact h.2
    · exact h
  | false =>
    simp only [hn, Bool.false_eq_true, if_false]
    split
    · exact ⟨by simp, rfl⟩
    · exact ⟨by simp, rfl⟩

theorem managedStep_inv (menus : Menus) (cfg : FlowConfig) (sT : String)
    (uP : Bool) (st : UserState) (h : FlowStackInv st) :
    FlowStackInv (managedStep menus cfg sT uP st).1 := by
  simp only [managedStep]
  split
  · refine ⟨by simp, ?_⟩
    show (st.flow_stack ++ [cfg.current_flow]).head? = some "main"
    rw [head?_append_singleton _ _ h.1]
    exact h.2
  · exact h

theorem exitStep_inv (st : UserState) (h : FlowStackInv st) :
    FlowStackInv (exitStep st) := by
  simp only [exitStep]
  split
  · rename_i hl
    obtain ⟨h1, h2⟩ := dropLast_head_of_one_lt st.flow_stack hl
    exact ⟨h1, h2.trans h.2⟩
  · exact h

theorem applyOp_inv (op : CoreOp) (st : UserState) (h : FlowStackInv st) :
    FlowStackInv (applyOp op st) := by
  cases op with
  | startCmd => exact ⟨by simp [applyOp, startStep], by simp [applyOp, startStep]⟩
  | resetCmd => exact ⟨by simp [applyOp, resetStep], by simp [applyOp, resetStep]⟩
  | staticFlow => exact h
  | extendedStaticFlow menus cfg => exact extendedStaticStep_inv menus cfg st h
  | managedFlow menus cfg sT uP => exact managedStep_inv menus cfg sT uP st h
  | chatMessage mf q resp mid =>
    have h1 := chatFlowAdjust_inv mf st h
    have h2 : FlowStackInv (chatInterpret q resp (chatFlowAdjust mf st)).1 := by
      unfold FlowStackInv
      rw [chatInterpret_flow_stack]
      exact h1
    show FlowStackInv (chatStep mf q resp mid st).1
    unfold chatStep FlowStackInv
    rw [chatTrack_flow_stack]
    exact h2
  | exitCb => exact exitStep_inv st h
  | paginationCb d =>
    have heq : (applyOp (CoreOp.paginationCb d) st).flow_stack = st.flow_stack :=
      paginationStep_flow_stack d st
    unfold FlowStackInv
    rw [heq]
    exact h

theorem applyOps_inv (ops : List CoreOp) (st : UserState)
    (h : FlowStackInv st) : FlowStackInv (applyOps ops st) := by
  induction ops generalizing st with
  | nil => exact h
  | cons op rest ih => exact ih (applyOp op st) (applyOp_inv op st h)

/-! Claim theorems. -/

/-- C1: for every reachable `UserState` — starting from the initial state
with `flow_stack = ["main"]` and applying any sequence of core operations
(`/start`, `/reset`, static / extended-static / managed flow entry, the
free-text chat fallback, the exit/back callback, pagination callbacks) —
`flow_stack` is non-empty and its first element is `"main"`. -/
theorem flowStack_reachable_invariant (ops : List CoreOp) :
    (applyOps ops initialUserState).flow_stack ≠ [] ∧
    (applyOps ops initialUserState).flow_stack.head? = some "main" :=
  applyOps_inv ops initialUserState ⟨by simp [initialUserState], rfl⟩

/-- C5: the exit/back operation pops exactly one element from `flow_stack`
when the stack has more than one element, and leaves `["main"]` unchanged
when it has one element (no underflow); in both cases it also sets
`use_pagination := false`, `search_type := ""` and `cards_json := none`. -/
theorem exit_back_pops_one_and_clears (st : UserState) :
    ((exitStep st).flow_stack =
      if st.flow_stack.length > 1 then st.flow_stack.dropLast
      else st.flow_stack) ∧
    (st.flow_stack.length > 1 →
      (exitStep st).flow_stack.length = st.flow_stack.length - 1) ∧
    (st.flow_stack = ["main"] → (exitStep st).flow_stack = ["main"]) ∧
    (exitStep st).use_pagination = false ∧
    (exitStep st).search_type = "" ∧
    (exitStep st).cards_json = none := by
  refine ⟨rfl, ?_, ?_, rfl, rfl, rfl⟩
  · intro hl
    simp only [exitStep]
    rw [if_pos hl, List.length_dropLast]
  · intro he
    simp [exitStep, he]

/-- Witness for C5 at concrete inputs: popping `["main","a","b"]` yields
`["main","a"]`, popping `["main"]` yields `["main"]`. -/
theorem exit_back_pops_one_and_clears_witness :
    (exitStep exDeepState).flow_stack.length = 2 ∧
    (exitStep initialUserState).flow_stack = ["main"] := by
  constructor
  · have h := (exit_back_pops_one_and_clears exDeepState).2.1 (by decide)
    simpa [exDeepState] using h
  · exact (exit_back_pops_one_and_clears initialUserState).2.2.1 rfl

/-- C6: with cards present and `0 ≤ currentPage < totalLength`,
`next_callback` sets the page to `min (currentPage+1) (totalLength-1)` and
`previous_callback` to `max (currentPage-1) 0`; `next` at the last page and
`previous` at page 0 are no-ops, and both operations preserve
`0 ≤ currentPage < totalLength`. -/
theorem pagination_clamps (st : UserState)
    (hc : cardsTruthy st.cards_json = true)
    (h0 : 0 ≤ st.cards_current_page)
    (h1 : st.cards_current_page < st.cards_total_length) :
    ((paginationStep "next_callback" st).cards_current_page =
      min (st.cards_current_page + 1) (st.cards_total_length - 1)) ∧
    ((paginationStep "previous_callback" st).cards_current_page =
      max (st.cards_current_page - 1) 0) ∧
    (st.cards_current_page = st.cards_total_length - 1 →
      paginationStep "next_callback" st = st) ∧
    (st.cards_current_page = 0 →
      paginationStep "previous_callback" st = st) ∧
    (0 ≤ (paginationStep "next_callback" st).cards_current_page ∧
      (paginationStep "next_callback" st).cards_current_page <
        st.cards_total_length) ∧
    (0 ≤ (paginationStep "previous_callback" st).cards_current_page ∧
      (paginationStep "previous_callback" st).cards_current_page <
        st.cards_total_length) := by
  have hnext : paginationStep "next_callback" st =
      if st.cards_current_page < st.cards_total_length - 1 then
        { st with cards_current_page := st.cards_current_page + 1 }
      else st := by
    simp [paginationStep, hc]
  have hprev : paginationStep "previous_callback" st =
      if st.cards_current_page > 0 then
        { st with cards_current_page := st.cards_current_page - 1 }
      else st := by
    simp [paginationStep, hc]
  have hnextPage : (paginationStep "next_callback" st).cards_current_page =
      if st.cards_current_page < st.cards_total_length - 1 then
        st.cards_current_page + 1
      else st.cards_current_page := by
    rw [hnext]; split_ifs <;> rfl
  have hprevPage :
      (paginationStep "previous_callback" st).cards_current_page =
      if st.cards_current_page > 0 then st.cards_current_page - 1
      else st.cards_current_page := by
    rw [hprev]; split_ifs <;> rfl
  refine ⟨?_, ?_, ?_, ?_, ?_, ?_⟩
  · rw [hnextPage]; split_ifs with h <;> omega
  · rw [hprevPage]; split_ifs with h <;> omega
  · intro he; rw [hnext, if_neg (by omega)]
  · intro he; rw [hprev, if_neg (by omega)]
  · rw [hnextPage]; split_ifs with h <;> omega
  · rw [hprevPage]; split_ifs with h <;> omega

/-- Witness for C6 at a concrete state (page 1 of 3 with one card list):
`next` moves to page 2, `previous` back to page 0. -/
theorem pagination_clamps_witness :
    cardsTruthy exPagState.cards_json = true ∧
    (paginationStep "next_callback" exPagState).cards_current_page =
      min (exPagState.cards_current_page + 1)
        (exPagState.cards_total_length - 1) ∧
    (paginationStep "previous_callback" exPagState).cards_current_page =
      max (exPagState.cards_current_page - 1) 0 :=
  ⟨rfl,
   (pagination_clamps exPagState rfl (by decide) (by decide)).1,
   (pagination_clamps exPagState rfl (by decide) (by decide)).2.1⟩

/-- C2 counterexample: with the top of stack already `"b"` and nested flow
`"b"` being entered, the transition is accepted but the handler pushes the
flow again: `["main","b"]` becomes `["main","b","b"]`, so `flow_stack` (and
its length) does change. -/
theorem self_reentry_counterexample :
    exSelfState.flow_stack.getLastD "" = exNestedCfg.current_flow ∧
    (extendedStaticStep [] exNestedCfg exSelfState).2 = true ∧
    (extendedStaticStep [] exNestedCfg exSelfState).1.flow_stack =
      ["main", "b", "b"] ∧
    (extendedStaticStep [] exNestedCfg exSelfState).1.flow_stack.length ≠
      exSelfState.flow_stack.length := by
  decide

/-- C2 amended: when the top-of-stack flow equals the flow being entered,
the transition is accepted, but the handler pushes the target again: for a
nested flow the stack grows by one copy of the target, for a root flow the
stack is reset and becomes `["main", target]`; the managed handler behaves
like the nested case. -/
theorem self_reentry_accepted_and_pushes (menus : Menus) (cfg : FlowConfig)
    (sT : String) (uP : Bool) (st : UserState)
    (htop : st.flow_stack.getLastD "" = cfg.current_flow) :
    (extendedStaticStep menus cfg st).2 = true ∧
    (extendedStaticStep menus cfg st).1.flow_stack =
      (if cfg.is_nested then st.flow_stack ++ [cfg.current_flow]
       else ["main", cfg.current_flow]) ∧
    (cfg.is_nested = true →
      (managedStep menus cfg sT uP st).2 = true ∧
      (managedStep menus cfg sT uP st).1.flow_stack =
        st.flow_stack ++ [cfg.current_flow]) := by
  have hv : validate_flow menus cfg st = true := by
    simp only [validate_flow, htop]
    simp
  cases hn : cfg.is_nested with
  | true =>
    refine ⟨?_, ?_, ?_⟩
    · simp [extendedStaticStep, hn, hv]
    · simp [extendedStaticStep, hn, hv]
    · intro _
      constructor
      · simp [managedStep, hv]
      · simp [managedStep, hv]
  | false =>
    have hv1 : validate_flow menus cfg { st with flow_stack := ["main"] } = true := by
      simp only [validate_flow]
      by_cases hm : ("main" : String) = cfg.current_flow
      · simp [hm]
      · simp [hm, hn]
    refine ⟨?_, ?_, ?_⟩
    · simp [extendedStaticStep, hn, hv1]
    · simp [extendedStaticStep, hn, hv1]
    · intro hcontra
      exact Bool.noConfusion hcontra

/-- Witness for C2 amended: re-entering nested flow `"b"` from
`["main","b"]` is accepted and yields `["main","b","b"]`. -/
theorem self_reentry_accepted_and_pushes_witness :
    exSelfState.flow_stack.getLastD "" = exNestedCfg.current_flow ∧
    (extendedStaticStep [] exNestedCfg exSelfState).1.flow_stack =
      ["main", "b", "b"] := by
  refine ⟨by decide, ?_⟩
  have h :=
    self_reentry_accepted_and_pushes [] exNestedCfg "s" true exSelfState
      (by decide)
  rw [h.2.1]
  decide

/-- C3 counterexample: entering root (non-nested) flow `"b"` while the
user's top of stack is `"a"` (not `"main"`) is accepted by the code — the
stack is reset before validation — refuting "valid iff current == main". -/
theorem root_entry_counterexample :
    exNonMainState.flow_stack.getLastD "" ≠ "main" ∧
    (extendedStaticStep [] exRootCfg exNonMainState).2 = true ∧
    (extendedStaticStep [] exRootCfg exNonMainState).1.flow_stack =
      ["main", "b"] := by
  decide

/-- C3 amended: entering a non-nested (root) flow through the
extended-static handler always succeeds, whatever the current top-of-stack
flow is, because the stack is reset to `["main"]` before validation; the
resulting `flow_stack` equals `["main", target]`, so no history from prior
flows survives. -/
theorem root_entry_resets_and_pushes (menus : Menus) (cfg : FlowConfig)
    (st : UserState) (h : cfg.is_nested = false) :
    (extendedStaticStep menus cfg st).2 = true ∧
    (extendedStaticStep menus cfg st).1.flow_stack =
      ["main", cfg.current_flow] := by
  have hv1 : validate_flow menus cfg { st with flow_stack := ["main"] } = true := by
    simp only [validate_flow]
    by_cases hm : ("main" : String) = cfg.current_flow
    · simp [hm]
    · simp [hm, h]
  constructor
  · simp [extendedStaticStep, h, hv1]
  · simp [extendedStaticStep, h, hv1]

/-- Witness for C3 amended: entering root flow `"b"` from `["main","a"]`
yields `["main","b"]`. -/
theorem root_entry_resets_and_pushes_witness :
    exRootCfg.is_nested = false ∧
    (extendedStaticStep [] exRootCfg exNonMainState).1.flow_stack =
      ["main", "b"] :=
  ⟨rfl, by
    rw [(root_entry_resets_and_pushes [] exRootCfg exNonMainState rfl).2]
    decide⟩

/-- C4 counterexample: with an empty menu table, entering nested managed
flow `"Search"` while the top of stack is already `"Search"` succeeds and
mutates the state, although `"Search"` is not among the button names of the
menu keyed by the current top flow — refuting the "iff". -/
theorem nested_entry_counterexample :
    menuButtons [] (exSearchState.flow_stack.getLastD "") = [] ∧
    (managedStep [] exSearchCfg "products" true exSearchState).2 = true ∧
    (managedStep [] exSearchCfg "products" true exSearchState).1.flow_stack =
      ["main", "Search", "Search"] := by
  decide

/-- C4 amended: for a nested flow, entry succeeds iff the target equals the
current top-of-stack flow (self-reentry) or its name appears among the
button names of the menu keyed by the current top; on failure the state is
returned unchanged and no message is sent. -/
theorem nested_entry_iff (menus : Menus) (cfg : FlowConfig) (sT : String)
    (uP : Bool) (st : UserState) (h : cfg.is_nested = true) :
    ((managedStep menus cfg sT uP st).2 = true ↔
      (st.flow_stack.getLastD "" = cfg.current_flow ∨
        cfg.current_flow ∈ menuButtons menus (st.flow_stack.getLastD ""))) ∧
    ((managedStep menus cfg sT uP st).2 = false →
      managedStep menus cfg sT uP st = (st, false)) := by
  have hval : validate_flow menus cfg st = true ↔
      (st.flow_stack.getLastD "" = cfg.current_flow ∨
        cfg.current_flow ∈ menuButtons menus (st.flow_stack.getLastD "")) := by
    simp only [validate_flow, h]
    by_cases ht : st.flow_stack.getLastD "" = cfg.current_flow
    · simp [ht]
    · simp [ht, List.contains_iff_exists_mem_beq]
  constructor
  · rw [← hval]
    simp only [managedStep]
    split
    · rename_i hs; simp [hs]
    · rename_i hs; simp_all
  · simp only [managedStep]
    split
    · simp
    · intro _; rfl

/-- Witness for C4 amended: with `"Search"` in the `"main"` menu, a user at
`["main"]` successfully enters the nested managed flow `"Search"`. -/
theorem nested_entry_iff_witness :
    exSearchCfg.is_nested = true ∧
    (managedStep [("main", ["Search"])] exSearchCfg "products" true
      initialUserState).2 = true :=
  ⟨rfl,
   ((nested_entry_iff [("main", ["Search"])] exSearchCfg "products" true
      initialUserState rfl).1).mpr (Or.inr (by decide))⟩

/-! Association-list lemmas for the dedup cache. -/

theorem lookup_eq_none_of_not_mem (l : DedupCache) (k : String)
    (h : k ∉ l.map Prod.fst) : l.lookup k = none := by
  rw [List.lookup_eq_none_iff]
  intro pp hp
  simp only [bne_iff_ne, ne_eq]
  intro he
  exact h (he ▸ List.mem_map_of_mem Prod.fst hp)

theorem fst_update_eq (key : String) (t : Int) (kv : String × Int) :
    (if kv.1 = key then (key, t) else kv).1 = kv.1 := by
  by_cases h : kv.1 = key
  · simp [h]
  · simp [h]

theorem lookup_map_update_self (l : DedupCache) (key : String) (t : Int)
    (hsome : (l.lookup key).isSome = true) :
    (l.map fun kv => if kv.1 = key then (key, t) else kv).lookup key =
      some t := by
  induction l with
  | nil => simp at hsome
  | cons kv rest ih =>
    obtain ⟨a, b⟩ := kv
    simp only [List.map_cons]
    by_cases hak : a = key
    · have hf : (if (a, b).1 = key then (key, t) else (a, b)) = (key, t) := by
        simp [hak]
      rw [hf, List.lookup_cons_self]
    · have hf : (if (a, b).1 = key then (key, t) else (a, b)) = (a, b) := by
        simp [hak]
      have hne : (key == a) = false :=
        beq_eq_false_iff_ne.mpr (fun he => hak he.symm)
      rw [hf]
      simp only [List.lookup_cons, hne]
      apply ih
      simpa [List.lookup_cons, hne] using hsome

theorem lookup_map_update_ne (l : DedupCache) (key : String) (t : Int)
    (k : String) (hk : k ≠ key) :
    (l.map fun kv => if kv.1 = key then (key, t) else kv).lookup k =
      l.lookup k := by
  induction l with
  | nil => rfl
  | cons kv rest ih =>
    obtain ⟨a, b⟩ := kv
    simp only [List.map_cons]
    by_cases hak : a = key
    · have hf : (if (a, b).1 = key then (key, t) else (a, b)) = (key, t) := by
        simp [hak]
      rw [hf]
      have h1 : (k == key) = false := beq_eq_false_iff_ne.mpr hk
      have h2 : (k == a) = false :=
        beq_eq_false_iff_ne.mpr (fun he => hk (he.trans hak))
      simp only [List.lookup_cons, h1, h2, ih]
    · have hf : (if (a, b).1 = key then (key, t) else (a, b)) = (a, b) := by
        simp [hak]
      rw [hf]
      by_cases hka : k = a
      · subst hka
        simp [List.lookup_cons_self]
      · have h2 : (k == a) = false := beq_eq_false_iff_ne.mpr hka
        simp only [List.lookup_cons, h2, ih]

theorem lookup_dedupInsert_self (l : DedupCache) (key : String) (t : Int) :
    (dedupInsert l key t).lookup key = some t := by
  unfold dedupInsert
  split
  · rename_i hsome
    exact lookup_map_update_self l key t hsome
  · rename_i hneg
    have hnone : l.lookup key = none :=
      Option.not_isSome_iff_eq_none.mp (by simpa using hneg)
    rw [List.lookup_append, hnone]
    simp

theorem lookup_dedupInsert_ne (l : DedupCache) (key : String) (t : Int)
    (k : String) (hk : k ≠ key) :
    (dedupInsert l key t).lookup k = l.lookup k := by
  unfold dedupInsert
  split
  · exact lookup_map_update_ne l key t k hk
  · rw [List.lookup_append]
    have h1 : ([(key, t)] : DedupCache).lookup k = none := by
      simp [List.lookup_cons, beq_eq_false_iff_ne.mpr hk]
    rw [h1]
    cases h : l.lookup k <;> rfl

theorem keys_dedupInsert_nodup (l : DedupCache) (key : String) (t : Int)
    (h : (l.map Prod.fst).Nodup) :
    ((dedupInsert l key t).map Prod.fst).Nodup := by
  unfold dedupInsert
  split
  · have hkeys : (l.map fun kv => if kv.1 = key then (key, t) else kv).map
        Prod.fst = l.map Prod.fst := by
      rw [List.map_map]
      apply List.map_congr_left
      intro kv _
      exact fst_update_eq key t kv
    rw [hkeys]
    exact h
  · rename_i hneg
    have hnone : l.lookup key = none :=
      Option.not_isSome_iff_eq_none.mp (by simpa using hneg)
    have hmem : key ∉ l.map Prod.fst := by
      intro hcon
      obtain ⟨pp, hpl, hpk⟩ := List.mem_map.mp hcon
      have hbad := List.lookup_eq_none_iff.mp hnone pp hpl
      rw [hpk] at hbad
      simp at hbad
    simp only [List.map_append, List.map_cons, List.map_nil]
    rw [List.nodup_append]
    refine ⟨h, List.nodup_singleton key, ?_⟩
    intro x hx hx2
    simp only [List.mem_singleton] at hx2
    exact hmem (hx2 ▸ hx)

theorem lookup_filter_nodup (l : DedupCache) (p : String × Int → Bool)
    (k : String) (h : (l.map Prod.fst).Nodup) :
    (l.filter p).lookup k =
      (l.lookup k).bind (fun v => if p (k, v) then some v else none) := by
  induction l with
  | nil => rfl
  | cons kv rest ih =>
    obtain ⟨a, b⟩ := kv
    have hn : a ∉ rest.map Prod.fst ∧ (rest.map Prod.fst).Nodup := by
      rw [List.map_cons, List.nodup_cons] at h
      exact h
    by_cases hka : k = a
    · subst hka
      by_cases hp : p (k, b)
      · rw [List.filter_cons_of_pos (by simpa using hp)]
        simp [List.lookup_cons_self, hp]
      · rw [List.filter_cons_of_neg (by simpa using hp)]
        have h1 : (rest.filter p).lookup k = none := by
          apply lookup_eq_none_of_not_mem
          intro hcon
          exact hn.1 (List.Sublist.subset
            (List.Sublist.map Prod.fst (List.filter_sublist rest)) hcon)
        rw [h1]
        simp [List.lookup_cons_self, hp]
    · have hbeq : (k == a) = false := beq_eq_false_iff_ne.mpr hka
      by_cases hp : p (a, b)
      · rw [List.filter_cons_of_pos (by simpa using hp)]
        simp only [List.lookup_cons, hbeq]
        exact ih hn.2
      · rw [List.filter_cons_of_neg (by simpa using hp)]
        simp only [List.lookup_cons, hbeq]
        exact ih hn.2

theorem dedupStep_processed_cache (c : DedupCache) (uid : Int) (p : String)
    (t : Int) (htr : (uid != 0 && p != "") = true)
    (h : (dedupStep c (some uid) (some p) t).1 = false) :
    (dedupStep c (some uid) (some p) t).2 =
      dedupPrune t (dedupInsert c (s!"{uid}:{p}") t) := by
  cases hl : c.lookup (s!"{uid}:{p}") with
  | none => simp [dedupStep, htr, hl]
  | some tp =>
    by_cases hw : t - tp < 2000
    · exfalso
      have hT : (dedupStep c (some uid) (some p) t).1 = true := by
        simp [dedupStep, htr, hl, hw]
      rw [hT] at h
      exact Bool.noConfusion h
    · simp [dedupStep, htr, hl, hw]

theorem dedupStep_drop_iff (c : DedupCache) (uid : Int) (p : String)
    (t tp : Int) (htr : (uid != 0 && p != "") = true)
    (hl : c.lookup (s!"{uid}:{p}") = some tp) :
    ((dedupStep c (some uid) (some p) t).1 = true ↔ t - tp < 2000) := by
  by_cases hw : t - tp < 2000
  · simp [dedupStep, htr, hl, hw]
  · simp [dedupStep, htr, hl, hw]

/-- C7: for two callback events with the same truthy `(user_id, payload)`
key, timestamps `t0` then `t1`, with the first one processed: the second is
dropped iff `t1 - t0 < 2000`; the processed event records its own timestamp
under the key; every other previously recorded entry survives the prune done
after the insert iff it is at most 10000 ms older than the current event's
timestamp (the event clock, not wall time); and an event missing `user_id`
or `payload` bypasses deduplication, leaving the cache untouched. -/
theorem dedup_window_and_prune (c0 : DedupCache) (uid : Int) (p : String)
    (t0 t1 : Int) (hnd : (c0.map Prod.fst).Nodup) (huid : uid ≠ 0)
    (hp : p ≠ "")
    (hproc : (dedupStep c0 (some uid) (some p) t0).1 = false) :
    ((dedupStep (dedupStep c0 (some uid) (some p) t0).2 (some uid) (some p)
        t1).1 = true ↔ t1 - t0 < 2000) ∧
    (dedupStep c0 (some uid) (some p) t0).2.lookup (s!"{uid}:{p}") =
      some t0 ∧
    (∀ (k : String) (ts : Int), k ≠ s!"{uid}:{p}" →
      c0.lookup k = some ts →
      (dedupStep c0 (some uid) (some p) t0).2.lookup k =
        (if t0 - ts > 10000 then none else some ts)) ∧
    (∀ (c : DedupCache) (t : Int),
      dedupStep c none (some p) t = (false, c) ∧
      dedupStep c (some uid) none t = (false, c)) := by
  have htr : (uid != 0 && p != "") = true := by
    simp [huid, hp]
  have hc1 := dedupStep_processed_cache c0 uid p t0 htr hproc
  have hinsnd := keys_dedupInsert_nodup c0 (s!"{uid}:{p}") t0 hnd
  have hself : (dedupStep c0 (some uid) (some p) t0).2.lookup
      (s!"{uid}:{p}") = some t0 := by
    rw [hc1]
    unfold dedupPrune
    rw [lookup_filter_nodup _ _ _ hinsnd,
      lookup_dedupInsert_self c0 (s!"{uid}:{p}") t0]
    have hkeep : ¬ (t0 - t0 > 10000) := by omega
    simp [hkeep]
  refine ⟨?_, hself, ?_, ?_⟩
  · exact dedupStep_drop_iff _ uid p t1 t0 htr hself
  · intro k ts hk hlk
    rw [hc1]
    unfold dedupPrune
    rw [lookup_filter_nodup _ _ _ hinsnd,
      lookup_dedupInsert_ne c0 (s!"{uid}:{p}") t0 k hk, hlk]
    by_cases hage : t0 - ts > 10000
    · simp only [hage, if_pos]
      simp
      omega
    · simp only [hage, if_neg]
      simp
      omega
  · intro c t
    exact ⟨rfl, rfl⟩

/-- Witness for C7 at concrete inputs: with an empty cache, user 7 and
payload `"go"`, a first event at `t=1000` is processed; a repeat at
`t=2500` (1500 ms later) is dropped, and the cache holds `1000` for the
key. -/
theorem dedup_window_and_prune_witness :
    (dedupStep [] (some 7) (some "go") 1000).1 = false ∧
    ((dedupStep (dedupStep [] (some 7) (some "go") 1000).2 (some 7)
        (some "go") 2500).1 = true) ∧
    (dedupStep [] (some 7) (some "go") 1000).2.lookup "7:go" = some 1000 := by
  have h := dedup_window_and_prune [] 7 "go" 1000 2500 (by decide)
    (by decide) (by decide) (by rfl)
  refine ⟨rfl, h.1.mpr (by decide), ?_⟩
  have h2 := h.2.1
  simpa using h2

/-- C8 counterexample: over a configuration whose `buttons` section maps
`exit` to a record with a `content` field, the string
`"@buttons.exit.content"` does not resolve to that content: the resolver
looks the first dotted part (`"buttons"`) up inside the `buttons` section
itself, finds nothing, and aborts the load with an error.  The reference
syntax the code accepts is `"@exit.content"`. -/
theorem reference_at_buttons_counterexample :
    resolve_references exC8Ctx (JValue.str "@buttons.exit.content") =
      .error "Reference @buttons not found in buttons." := by
  rfl

/-- C8 amended: references are resolved inside the `buttons` section, so the
reference for the `content` field of the `exit` button is written
`"@exit.content"`: it resolves to that content value for every configuration
whose `buttons` section maps `exit` to a record with a `content` field; a
reference whose base key is absent from `buttons`, or whose dotted subkey is
absent from the resolved record, raises an error that aborts the load. -/
theorem reference_resolution (ctx bsec : JValue)
    (exitFields : List (String × JValue)) (v : JValue)
    (hbtn : getDictField ctx "buttons" = some bsec)
    (hexit : getDictField bsec "exit" = some (JValue.obj exitFields))
    (hcontent : exitFields.lookup "content" = some v) :
    resolve_references ctx (JValue.str "@exit.content") = .ok v ∧
    (∀ (ctx2 bsec2 : JValue), getDictField ctx2 "buttons" = some bsec2 →
      getDictField bsec2 "exit" = none →
      isResolveError (resolve_references ctx2 (JValue.str "@exit.content")) =
        true) ∧
    (∀ (ctx2 bsec2 : JValue) (ef : List (String × JValue)),
      getDictField ctx2 "buttons" = some bsec2 →
      getDictField bsec2 "exit" = some (JValue.obj ef) →
      ef.lookup "content" = none →
      isResolveError (resolve_references ctx2 (JValue.str "@exit.content")) =
        true) := by
  have hsw : startsWithAt "@exit.content" = true := by decide
  have hparts : pySplitDot (pyDropOne "@exit.content") = ["exit", "content"] := by
    decide
  refine ⟨?_, ?_, ?_⟩
  · simp [resolve_references, hsw, hparts, hbtn, hexit, drillParts, hcontent]
  · intro ctx2 bsec2 hbtn2 hnone
    simp [resolve_references, hsw, hparts, hbtn2, hnone, isResolveError]
  · intro ctx2 bsec2 ef hbtn2 hexit2 hnone
    simp [resolve_references, hsw, hparts, hbtn2, hexit2, drillParts, hnone,
      isResolveError]

/-- Witness for C8 amended: `"@exit.content"` resolves to `"Назад"` over the
concrete configuration, and a missing base key aborts the load. -/
theorem reference_resolution_witness :
    resolve_references exC8Ctx (JValue.str "@exit.content") =
      .ok (JValue.str "Назад") ∧
    isResolveError
      (resolve_references (JValue.obj [("buttons", JValue.obj [])])
        (JValue.str "@exit.content")) = true := by
  have h := reference_resolution exC8Ctx
    (JValue.obj [("exit", JValue.obj [("content", JValue.str "Назад")])])
    [("content", JValue.str "Назад")] (JValue.str "Назад") rfl rfl rfl
  exact ⟨h.1, h.2.1 (JValue.obj [("buttons", JValue.obj [])])
    (JValue.obj []) rfl rfl⟩

theorem intercalate_go_prefix (l : List String) (acc s : String) :
    ∃ t, String.intercalate.go acc s l = acc ++ t := by
  induction l generalizing acc with
  | nil =>
    refine ⟨"", ?_⟩
    show acc = acc ++ ""
    rw [String.append_empty]
  | cons a as ih =>
    obtain ⟨t, ht⟩ := ih (acc ++ s ++ a)
    refine ⟨s ++ a ++ t, ?_⟩
    show String.intercalate.go (acc ++ s ++ a) s as = acc ++ (s ++ a ++ t)
    rw [ht]
    simp [String.append_assoc]

theorem card_header_prefix (card : Card) :
    ∃ t, card_from_json card 0 2 = "📄 Результат 1 из 3\n" ++ t := by
  have hh : (s!"📄 Результат {(0 : Int) + 1} из {(2 : Int) + 1}\n") =
      "📄 Результат 1 из 3\n" := by rfl
  unfold card_from_json
  rw [hh]
  show ∃ t, String.intercalate.go "📄 Результат 1 из 3\n" "\n"
    (cardFieldLines card) = "📄 Результат 1 из 3\n" ++ t
  exact intercalate_go_prefix (cardFieldLines card) _ "\n"

theorem chatTrack_cards (mid : Option String) (st : UserState) :
    (chatTrack mid st).cards_total_length = st.cards_total_length ∧
    (chatTrack mid st).cards_current_page = st.cards_current_page := by
  cases mid <;> exact ⟨rfl, rfl⟩

/-- C9: a user inside a managed flow with `use_pagination = true` sending
free text, answered by the AI with exactly 3 records under `product_cards`
(and no plain `cards` list and no answer), ends with
`cards_total_length = 3` and `cards_current_page = 0`; the message content
is the rendering of the first card, whose header line is
`"📄 Результат 1 из 3"`. -/
theorem chat_pagination_init (mf : List String) (q : String)
    (c0 c1 c2 : Card) (mid : Option String) (st : UserState)
    (hin : mf.contains (st.flow_stack.getLastD "") = true)
    (hpag : st.use_pagination = true) :
    ((chatStep mf q ⟨none, none, some [c0, c1, c2]⟩ mid st).1.cards_total_length
      = 3) ∧
    ((chatStep mf q ⟨none, none, some [c0, c1, c2]⟩ mid st).1.cards_current_page
      = 0) ∧
    ((chatStep mf q ⟨none, none, some [c0, c1, c2]⟩ mid st).2 =
      yaRuFilter (card_from_json c0 0 2)) ∧
    (∃ t, card_from_json c0 0 2 = "📄 Результат 1 из 3\n" ++ t) := by
  have hin2 : st.flow_stack.getLast?.getD "" ∈ mf := by simpa using hin
  have hadj : chatFlowAdjust mf st = st := by
    simp [chatFlowAdjust, hin2]
  have hint : chatInterpret q ⟨none, none, some [c0, c1, c2]⟩ st =
      ({ st with
          cards_json := some [c0, c1, c2]
          cards_current_page := 0
          cards_total_length := 3 },
       card_from_json c0 0 2) := by
    simp [chatInterpret, truthyStr, cardsTruthy, hpag]
  have hstep : chatStep mf q ⟨none, none, some [c0, c1, c2]⟩ mid st =
      (chatTrack mid
        { st with
          cards_json := some [c0, c1, c2]
          cards_current_page := 0
          cards_total_length := 3 },
       yaRuFilter (card_from_json c0 0 2)) := by
    simp only [chatStep, hadj, hint]
  rw [hstep]
  refine ⟨?_, ?_, rfl, card_header_prefix c0⟩
  · rw [(chatTrack_cards mid _).1]
  · rw [(chatTrack_cards mid _).2]

/-- Witness for C9 at concrete inputs: a user at `["main","Search"]` with
pagination on and three concrete product cards. -/
theorem chat_pagination_init_witness :
    (["Search"] : List String).contains (exChatState.flow_stack.getLastD "")
      = true ∧
    (chatStep ["Search"] "nf"
      ⟨none, none, some [[("name", "A")], [("name", "B")], [("name", "C")]]⟩
      none exChatState).1.cards_total_length = 3 ∧
    (chatStep ["Search"] "nf"
      ⟨none, none, some [[("name", "A")], [("name", "B")], [("name", "C")]]⟩
      none exChatState).1.cards_current_page = 0 :=
  ⟨by decide,
   (chat_pagination_init ["Search"] "nf" [("name", "A")] [("name", "B")]
     [("name", "C")] none exChatState (by decide) rfl).1,
   (chat_pagination_init ["Search"] "nf" [("name", "A")] [("name", "B")]
     [("name", "C")] none exChatState (by decide) rfl).2.1⟩

/-- C10: the static flow handler is purely informational: for a message
event with a registered user holding the required privilege, the state it
returns is exactly the input state, and it proceeds to send its message. -/
theorem static_flow_frame (cfg : FlowConfig) (u : UserRec) (st : UserState)
    (hpriv : cfg.privileged = true → u.is_vip = true) :
    staticCall cfg true (some u) st = (st, true) := by
  have hv : validate_user cfg (some u) = true := by
    unfold validate_user
    cases hc : cfg.privileged
    · simp
    · simp [hpriv hc]
  simp [staticCall, hv]

/-- Witness for C10: a non-privileged static flow with a non-VIP registered
user returns the state unchanged and sends. -/
theorem static_flow_frame_witness :
    staticCall exRootCfg true (some ⟨false⟩) initialUserState =
      (initialUserState, true) :=
  static_flow_frame exRootCfg ⟨false⟩ initialUserState (by decide)

end MaxBot
